import Mathlib

set_option maxHeartbeats 1000000

namespace VesselTheme

mutual

/-- A light-DOM element node: tag name, whether it is an upgraded instance of the
`Component` class, the value of its `ref` attribute (if present), and its children
(a `DomForest`, the sibling list of child elements in document order). -/
inductive DomNode : Type where
  | mk (tag : String) (isInst : Bool) (refAttr : Option String) (children : DomForest)
deriving DecidableEq, Repr

/-- A sibling list of DOM elements in document order. -/
inductive DomForest : Type where
  | nil
  | cons (c : DomNode) (rest : DomForest)
deriving DecidableEq, Repr

end

def DomNode.tag : DomNode → String
  | .mk t _ _ _ => t

def DomNode.isInst : DomNode → Bool
  | .mk _ i _ _ => i

def DomNode.refAttr : DomNode → Option String
  | .mk _ _ r _ => r

def DomNode.children : DomNode → DomForest
  | .mk _ _ _ cs => cs

/-- Build a forest from a list of sibling elements. -/
def domForest : List DomNode → DomForest
  | [] => DomForest.nil
  | c :: rest => DomForest.cons c (domForest rest)

mutual

/-- All descendant occurrences of a node, in document (pre-)order, paired with their
chain of ancestors (nearest first). `anc` is the ancestor chain of `n` itself. -/
def descsNode (anc : List DomNode) : DomNode → List (DomNode × List DomNode)
  | .mk t i r cs => descsForest (DomNode.mk t i r cs :: anc) cs

/-- All descendant occurrences of a forest of siblings, in document order, paired with
their ancestor chains. `anc` is the ancestor chain of every root of the forest. -/
def descsForest (anc : List DomNode) : DomForest → List (DomNode × List DomNode)
  | .nil => []
  | .cons c rest => (c, anc) :: (descsNode anc c ++ descsForest anc rest)

end

/-! Character-list formulations of the string operations the source uses, chosen so
that every definition evaluates by kernel reduction. Each matches the semantics of
the corresponding JavaScript / Lean library operation on the inputs involved. -/

/-- `s.endsWith(suffix)`. -/
def strEndsWith (s suffix : String) : Bool := suffix.data.isSuffixOf s.data

/-- `s.startsWith(p)`. -/
def strStartsWith (s p : String) : Bool := p.data.isPrefixOf s.data

/-- `s.slice(0, -n)`: the string without its last `n` characters. -/
def strDropRight (s : String) (n : Nat) : String :=
  String.mk (s.data.take (s.data.length - n))

/-- `s.slice(n)`: the string without its first `n` characters. -/
def strDrop (s : String) (n : Nat) : String := String.mk (s.data.drop n)

/-- `s.toLowerCase()`, lowering each character. -/
def strToLower (s : String) : String := String.mk (s.data.map Char.toLower)

/-- Leading and trailing whitespace removal. -/
def strTrim (s : String) : String :=
  String.mk ((s.data.dropWhile Char.isWhitespace).reverse.dropWhile Char.isWhitespace).reverse

/-- The numeric value of a non-empty all-digit string, `none` otherwise. -/
def strToNat? (s : String) : Option Nat :=
  if s.data.isEmpty then none
  else if s.data.all Char.isDigit then
    some (s.data.foldl (fun acc c => acc * 10 + (c.toNat - 48)) 0)
  else none

/-- Split a character list at every occurrence of `c` (the separator removed). -/
def splitCharList (c : Char) : List Char → List (List Char)
  | [] => [[]]
  | x :: xs =>
    let r := splitCharList c xs
    if x = c then [] :: r
    else
      match r with
      | h :: t => (x :: h) :: t
      | [] => [[x]]

/-- `s.split(c)` for a single-character separator. -/
def splitOnChar (c : Char) (s : String) : List String :=
  (splitCharList c s.data).map fun cs => String.mk cs

/-- Join strings with a separator. -/
def strIntercalate (sep : String) (l : List String) : String :=
  String.mk (List.intercalate sep.data (l.map String.data))

/-- The test applied by `getClosestComponent` to each node: an instance of
`Component`, or an element whose tag name (lowercased) ends in `-component`. -/
def isComponentNode (n : DomNode) : Bool :=
  n.isInst || strEndsWith (strToLower n.tag) "-component"

/-- `getClosestComponent` from `vessel-theme-loader.js`, expressed over an ancestor
chain (a node followed by its ancestors, nearest first): the first node in the chain
that is an instance of `Component` or whose tag name (lowercased) ends in
`-component`; `none` if the chain is exhausted. -/
def closestComponent : List DomNode → Option DomNode
  | [] => none
  | n :: rest => if isComponentNode n then some n else closestComponent rest

/-- Whether a node has a `ref` attribute, i.e. matches the `[ref]` selector. -/
def hasRefAttr (n : DomNode) : Bool := n.refAttr.isSome

/-- The element list produced by `Component.#updateRefs`'s query phase: all descendant
occurrences of `this` carrying a `ref` attribute, in document order, filtered by
`#isDescendant` (`getClosestComponent(getAncestor(element)) === this`). `anc0` is the
ancestor chain above `this`. The component is modelled without a shadow root, so its
only query root is itself. -/
def collectRefElements (anc0 : List DomNode) (this : DomNode) : List DomNode :=
  ((descsForest (this :: anc0) this.children).filter
    (fun pr => hasRefAttr pr.1 && (closestComponent pr.2 == some this))).map Prod.fst

/-- A value stored in the `refs` object: a single element or an accumulated array. -/
inductive RefValue : Type where
  | single (el : DomNode)
  | array (els : List DomNode)
deriving DecidableEq, Repr

/-- Insertion-ordered string-keyed map, modelling a plain JavaScript object. -/
abbrev JsObj (α : Type) := List (String × α)

/-- Property read `obj[key]` on a plain JavaScript object. -/
def getKey? {α : Type} : JsObj α → String → Option α
  | [], _ => none
  | (k', v') :: rest, k => if k' = k then some v' else getKey? rest k

/-- Property write `obj[key] = value` on a plain JavaScript object: replaces the value
if the key is present (keeping its position), otherwise appends the key at the end. -/
def setKey {α : Type} : JsObj α → String → α → JsObj α
  | [], k, v => [(k, v)]
  | (k', v') :: rest, k, v =>
    if k' = k then (k, v) :: rest else (k', v') :: setKey rest k v

/-- Whether a ref name uses the array-accumulating `name[]` syntax. -/
def isArrayRef (el : DomNode) : Bool := strEndsWith (el.refAttr.getD "") "[]"

/-- The key under which an element is stored: its ref name with a `[]` suffix
stripped. Mirrors `const path = isArray ? refName.slice(0, -2) : refName`. -/
def refPath (el : DomNode) : String :=
  let refName := el.refAttr.getD ""
  if strEndsWith refName "[]" then strDropRight refName 2 else refName

/-- One step of the refs-building loop in `Component.#updateRefs`: store the element
under its path, accumulating into an array when the name ends in `[]` (an existing
non-array value is discarded, as in `Array.isArray(refs[path]) ? refs[path] : []`). -/
def addRef (refs : JsObj RefValue) (el : DomNode) : JsObj RefValue :=
  let refName := el.refAttr.getD ""
  let isArr := strEndsWith refName "[]"
  let path := if isArr then strDropRight refName 2 else refName
  if isArr then
    let arr := match getKey? refs path with
      | some (RefValue.array els) => els
      | _ => []
    setKey refs path (RefValue.array (arr ++ [el]))
  else
    setKey refs path (RefValue.single el)

/-- The refs object built by `Component.#updateRefs` from the collected elements. -/
def buildRefs (els : List DomNode) : JsObj RefValue := els.foldl addRef []

/-- The error thrown by `Component.#updateRefs` when a required ref is absent. -/
structure MissingRefError : Type where
  refName : String
  componentTag : String
deriving DecidableEq, Repr

/-- The message carried by a `MissingRefError`:
`Required ref "<ref>" not found in component <tag>`. -/
def MissingRefError.message (e : MissingRefError) : String :=
  "Required ref \"" ++ e.refName ++ "\" not found in component " ++ strToLower e.componentTag

/-- `Component.#updateRefs`: build the refs object from the scan, then check the
required ref names in order and fail on the first one absent from the object; on
success return the new refs object (which replaces `this.refs`). -/
def updateRefs (anc0 : List DomNode) (this : DomNode) (required : List String) :
    Except MissingRefError (JsObj RefValue) :=
  let refs := buildRefs (collectRefElements anc0 this)
  match required.find? (fun r => (getKey? refs r).isNone) with
  | some r => Except.error ⟨r, this.tag⟩
  | none => Except.ok refs

mutual

/-- Modelled from the spec: the ref elements belonging to a component according to the
specification's invariant, collected by walking the subtree in document order and not
descending into nested components ("only descendants whose nearest component ancestor
is `this` are collected"). Used as the specification side of the C5 refinement. -/
def specOwnRefElements : DomForest → List DomNode
  | DomForest.nil => []
  | DomForest.cons c rest =>
    (if hasRefAttr c then [c] else []) ++
      (if isComponentNode c then [] else specOwnRefNode c) ++
      specOwnRefElements rest

/-- The spec-side scan of a single element's children. -/
def specOwnRefNode : DomNode → List DomNode
  | DomNode.mk _ _ _ cs => specOwnRefElements cs

end

/-! ## Event delegation registry -/

/-- The event kinds handled by the delegation registry (the `events` array). -/
def delegatedEvents : List String :=
  ["click", "change", "select", "focus", "blur", "submit", "input", "keydown", "keyup",
    "toggle"]

/-- The two "expensive" pointer event kinds (the `expensiveEvents` array). -/
def expensiveEvents : List String := ["pointerenter", "pointerleave"]

/-- The process-wide state of the event-delegation registry: the module-level
`initialized` flag, and the list of event kinds for which a capturing document
listener has been added (one entry per `document.addEventListener` call). -/
structure EventRegistry : Type where
  flagged : Bool
  listeners : List String
deriving DecidableEq, Repr

/-- The registry state before any component has connected. -/
def initialRegistry : EventRegistry := ⟨false, []⟩

/-- `registerEventListeners`: a no-op when the `initialized` flag is already set;
otherwise set the flag and add one capturing document listener for each event kind in
`[...events, ...expensiveEvents]`. -/
def registerEventListeners (r : EventRegistry) : EventRegistry :=
  if r.flagged then r
  else ⟨true, r.listeners ++ (delegatedEvents ++ expensiveEvents)⟩

/-! ## Attribute-value parsing for delegated dispatch -/

/-- Whether a character is one of the two segment delimiters of the binding
attribute syntax, `/` or `?`. -/
def isDelim (c : Char) : Bool := c == '/' || c == '?'

/-- One step of splitting a character list into chunks, where a chunk boundary sits
immediately before every delimiter character. -/
def consChunk (c : Char) (acc : List (List Char)) : List (List Char) :=
  match acc with
  | [] => [[c]]
  | h :: t =>
    match h with
    | [] => [c] :: t
    | hc :: _ => if isDelim hc then [c] :: h :: t else (c :: h) :: t

/-- Split a string into chunks at every `/` or `?`; each chunk after the first starts
with the delimiter that opened it. -/
def delimChunks (s : String) : List String :=
  ((s.data.foldr consChunk []).map fun cs => String.mk cs)

/-- Whether a chunk is a delimiter followed by at least one non-delimiter character,
i.e. matches the regex piece `[\/\?][^\/\?]+`. -/
def isDelimSegment (s : String) : Bool :=
  match s.data with
  | c :: rest => isDelim c && !rest.isEmpty
  | [] => false

/-- The data segment extracted by
`value.match(/([\/\?][^\/\?]+)([\/\?][^\/\?]+)$/)` — the second captured group when
the attribute value ends in two delimiter-introduced non-empty segments, `none`
otherwise (so `matches ? matches[2] : null`). -/
def lastDataSegment (value : String) : Option String :=
  match (delimChunks value).reverse with
  | last :: prev :: _ =>
    if isDelimSegment prev && isDelimSegment last then some last else none
  | _ => none

/-- The `selector` of `let [selector, method] = value.split('/')`. -/
def selectorSegment (value : String) : String := (splitOnChar '/' value).headD ""

/-- The `method` of `let [selector, method] = value.split('/')`: the second element
of the split, `none` when the value contains no `/` (JavaScript `undefined`). -/
def methodSegment? (value : String) : Option String := (splitOnChar '/' value)[1]?

/-- `method.replace(/\?.*/, '')`: the method name up to the first `?`. -/
def stripQuery (m : String) : String := (splitOnChar '?' m).headD ""

/-- A primitive produced by `parseValue`: boolean, number, or string. -/
inductive JsPrim : Type where
  | boolean (b : Bool)
  | number (n : Int)
  | string (s : String)
deriving DecidableEq, Repr

/-- A model of JavaScript `Number(str)` restricted to integer numerals: trims
whitespace, `""` is `0`, an optional sign followed by digits is that integer, and
anything else is `none` (standing for `NaN`; non-integer numeric syntaxes such as
decimals or exponents are outside the inputs exercised by the claims). -/
def jsStrToInt? (s : String) : Option Int :=
  let t := strTrim s
  if t = "" then some 0
  else if strStartsWith t "-" then (strToNat? (strDrop t 1)).map fun n => -(n : Int)
  else if strStartsWith t "+" then (strToNat? (strDrop t 1)).map fun n => (n : Int)
  else (strToNat? t).map fun n => (n : Int)

/-- `parseValue`: `"true"`/`"false"` become booleans; otherwise a value whose
`Number(...)` conversion is not `NaN` and whose trimmed form is non-empty becomes a
number; everything else stays a string. -/
def parseValue (str : String) : JsPrim :=
  if str = "true" then JsPrim.boolean true
  else if str = "false" then JsPrim.boolean false
  else
    match jsStrToInt? str with
    | some n => if strTrim str ≠ "" then JsPrim.number n else JsPrim.string str
    | none => JsPrim.string str

/-- The entry list of `new URLSearchParams(data)` for the simple (undecoded) pair
syntax used by binding attributes: `&`-separated pairs, each split at its first `=`
(a pair with no `=` maps to the empty string), empty pairs skipped. -/
def urlSearchEntries (s : String) : List (String × String) :=
  (splitOnChar '&' s).filterMap fun pair =>
    if pair = "" then none
    else
      match splitOnChar '=' pair with
      | [] => none
      | k :: rest => some (k, strIntercalate "=" rest)

/-- `Object.fromEntries`: later entries for the same key overwrite earlier ones. -/
def jsFromEntries {α : Type} (l : List (String × α)) : JsObj α :=
  l.foldl (fun m kv => setKey m kv.1 kv.2) []

/-- The argument value produced by `parseData`. -/
inductive JsData : Type where
  | prim (v : JsPrim)
  | object (fields : JsObj JsPrim)
deriving DecidableEq, Repr

/-- `parseData`: a segment starting with `?` parses as query-string key/value pairs
with each value coerced by `parseValue`; otherwise the remainder parses as a single
scalar. -/
def parseData (str : String) : JsData :=
  let rest := strDrop str 1
  if strStartsWith str "?" then
    JsData.object (jsFromEntries ((urlSearchEntries rest).map fun kv => (kv.1, parseValue kv.2)))
  else
    JsData.prim (parseValue rest)

/-! ## Delegated dispatch -/

/-- An argument passed to an invoked component method: the (possibly proxy-wrapped)
event, or a parsed data value. -/
inductive CallArg : Type where
  | event (proxied : Bool)
  | data (d : JsData)
deriving DecidableEq, Repr

/-- What a component instance holds under a method name: nothing, a non-function
property, or a function that either returns or throws the given error when called. -/
inductive MethodSlot : Type where
  | absent
  | notFunction
  | fn (throwsWith : Option String)
deriving DecidableEq, Repr

/-- The observable outcome of one delegated event dispatch. -/
inductive DispatchOutcome : Type where
  | invoked (inst : DomNode) (method : String) (args : List CallArg)
  | caught (inst : DomNode) (method : String) (args : List CallArg) (err : String)
  | skipped
deriving DecidableEq, Repr

/-- The DOM context a single dispatch runs in: `document.querySelector` for `#`
selectors, `element.closest` for other selectors, and the matched element's ancestor
chain (the element itself first) used by `getClosestComponent(element)`. -/
structure DispatchEnv : Type where
  queryById : String → Option DomNode
  closestMatch : String → Option DomNode
  chain : List DomNode

/-- Resolution of the target instance: a non-empty selector starting with `#` is
looked up in the document, another non-empty selector via `element.closest`, and an
empty selector falls back to the nearest enclosing component of the element. -/
def resolveInstance (env : DispatchEnv) (selector : String) : Option DomNode :=
  if selector ≠ "" then
    if strStartsWith selector "#" then env.queryById selector else env.closestMatch selector
  else closestComponent env.chain

/-- The raw call of the resolved method, before the `try`/`catch`: a throwing
callback surfaces as an exception. -/
def invokeCallback (inst : DomNode) (method : String) (args : List CallArg)
    (throwsWith : Option String) : Except String DispatchOutcome :=
  match throwsWith with
  | some e => Except.error e
  | none => Except.ok (DispatchOutcome.invoked inst method args)

/-- The body of the capturing listener installed by `registerEventListeners`, from the
point where the bound element and its attribute value are known. Returns the dispatch
outcome and the list of messages passed to `console.error`. `targetIsElement` is
whether `event.target === element` (otherwise the event is proxy-wrapped). -/
def dispatchEvent (env : DispatchEnv) (methods : DomNode → String → MethodSlot)
    (value : String) (targetIsElement : Bool) : DispatchOutcome × List String :=
  let selector := selectorSegment value
  let data? := lastDataSegment value
  match resolveInstance env selector with
  | none => (DispatchOutcome.skipped, [])
  | some inst =>
    if inst.isInst = false then (DispatchOutcome.skipped, [])
    else
      match methodSegment? value with
      | none => (DispatchOutcome.skipped, [])
      | some m0 =>
        if m0 = "" then (DispatchOutcome.skipped, [])
        else
          let method := stripQuery m0
          match methods inst method with
          | MethodSlot.absent => (DispatchOutcome.skipped, [])
          | MethodSlot.notFunction => (DispatchOutcome.skipped, [])
          | MethodSlot.fn throwsWith =>
            let args :=
              match data? with
              | some d => [CallArg.data (parseData d), CallArg.event (!targetIsElement)]
              | none => [CallArg.event (!targetIsElement)]
            match invokeCallback inst method args throwsWith with
            | Except.ok o => (o, [])
            | Except.error e => (DispatchOutcome.caught inst method args e, [e])

/-! ## Overflow list -/

/-- A list item, identified by a number (modelling DOM node identity). -/
abbrev Item := Nat

/-- The observable state of an `<overflow-list>` element: its children in order, the
slot assignment, the styles and attributes the algorithm touches, and the observer
connection driven by `#reflowItems` / `#reset`. `observersConnected` covers the
resize and mutation observers, which the source connects and disconnects together;
`resizeHasFired` is the `ResizeNotifier` flag that swallows the first callback after
each (re)observe. -/
structure OLState : Type where
  items : List Item
  overflowSlot : List Item
  moreHidden : Bool
  placeholderHidden : Bool
  placeholderWidthStyle : Option String
  placeholderDisplayStyle : Option String
  listHeightStyle : Option String
  listOverflowStyle : Option String
  counterResetStyle : Option String
  overflowCountProp : Option String
  minimumItemsAttr : Option String
  minimumReachedAttr : Bool
  disabledAttr : Option String
  observersConnected : Bool
  resizeHasFired : Bool
  lastDimensions : Option (Nat × Nat)
deriving DecidableEq, Repr

/-- The geometry inputs of one reflow pass, abstracting the `getBoundingClientRect`
measurements: the first child's height, the list's bounding rectangle (rounded), the
two visibility passes (`vis1`: which items' top edge aligns with the container's top
with every item in the default slot; `vis2`: the same remeasurement with the "More"
indicator, and the forced item if any, ordered first), and each item's client width. -/
structure Measurement : Type where
  firstChildHeight : Option Nat
  rootDims : Nat × Nat
  vis1 : Item → Bool
  vis2 : Item → Bool
  widthOf : Item → Nat

/-- The result of one `#reflowItems` call: the new state, the `minimumReached` details
of the dispatched `OverflowMinimumEvent`s, and the final visible / overflowing
partition computed by the algorithm. -/
structure ReflowOutcome : Type where
  state : OLState
  events : List Bool
  visibleElements : List Item
  overflowingElements : List Item
deriving DecidableEq, Repr

/-- The value of the `minimum-items` getter: `null` for a missing or empty attribute,
otherwise `parseInt(value, 10)` with `none` as `NaN`. -/
inductive MinItems : Type where
  | null
  | nan
  | num (n : Int)
deriving DecidableEq, Repr

/-- A model of `parseInt(s, 10)`: skip whitespace, optional sign, then the longest
digit prefix; `NaN` (here `none`) when no digit is found. -/
def jsParseInt10 (s : String) : Option Int :=
  let t := strTrim s
  let sign : Int := if strStartsWith t "-" then -1 else 1
  let rest := if strStartsWith t "-" || strStartsWith t "+" then strDrop t 1 else t
  let digits := String.mk (rest.data.takeWhile Char.isDigit)
  if digits = "" then none else (strToNat? digits).map fun n => sign * n

/-- The `minimumItems` getter of `OverflowList`. -/
def minimumItems (s : OLState) : MinItems :=
  match s.minimumItemsAttr with
  | none => MinItems.null
  | some v =>
    if v = "" then MinItems.null
    else
      match jsParseInt10 v with
      | none => MinItems.nan
      | some n => MinItems.num n

/-- `OverflowList.#updateMinimumReached`: when `minimum-items` is configured, compare
the visible count to it, toggle the `minimum-reached` attribute, and dispatch an
`OverflowMinimumEvent` carrying the comparison; otherwise do nothing. A `NaN`
threshold compares as false, removing the attribute. -/
def updateMinimumReached (visibleCount : Nat) (s : OLState) : OLState × List Bool :=
  match minimumItems s with
  | MinItems.null => (s, [])
  | MinItems.nan => ({ s with minimumReachedAttr := false }, [false])
  | MinItems.num n =>
    let mr := (visibleCount : Int) < n
    ({ s with minimumReachedAttr := mr }, [mr])

/-- The `visibleElements` local of `#reflowItems`: the first measurement pass with
every item in the default slot; then — when not every item fits or a forced
last-visible element was requested — the remeasurement pass (indicator and forced
element ordered first), with a forced element that is still visible spliced out of
its position and pushed to the end of the visible array. -/
def reflowVisible (m : Measurement) (forced : Option Item) (elements : List Item) :
    List Item :=
  let visible1 := elements.filter m.vis1
  if visible1.length ≠ elements.length || forced.isSome then
    let v2 := elements.filter m.vis2
    match forced with
    | some f => if v2.contains f then v2.erase f ++ [f] else v2
    | none => v2
  else visible1

/-- The `overflowingElements` local of `#reflowItems`: the items not in the final
visible set. -/
def reflowOverflowing (m : Measurement) (forced : Option Item) (elements : List Item) :
    List Item :=
  elements.filter fun e => !(reflowVisible m forced elements).contains e

/-- `OverflowList.#reflowItems`, with geometry abstracted by `m`, as the net state
transition of one call (the source's transient intermediate writes — items moved to
the default slot for measuring, the `hidden`/`overflow: hidden` toggles and the fixed
list height that are reverted before returning, and the observer disconnect/reconnect
bracket — are collapsed to their final values): measure with every item in the
default slot, run the second measurement pass when not everything fits or a forced
last-visible element was requested, move overflowing items to the overflow slot,
update indicator/placeholder visibility and counters, update the minimum-reached
state when something overflows, and leave the observers re-observed with the
`ResizeNotifier` flag reset. -/
def reflowItems (m : Measurement) (forced : Option Item) (s : OLState) : ReflowOutcome :=
  let visible := reflowVisible m forced s.items
  let overflowing := reflowOverflowing m forced s.items
  let hasOverflow := decide (0 < overflowing.length)
  let placeholderWidth :=
    match overflowing.head? with
    | some first => m.widthOf first
    | none => 0
  let s1 : OLState :=
    { s with
      resizeHasFired := false,
      listHeightStyle :=
        match m.firstChildHeight with
        | some h => if h = 0 then s.listHeightStyle else some (toString h ++ "px")
        | none => s.listHeightStyle,
      listOverflowStyle := none,
      overflowSlot := overflowing,
      moreHidden := !hasOverflow,
      placeholderHidden := !hasOverflow,
      placeholderWidthStyle :=
        if hasOverflow then some (toString placeholderWidth ++ "px")
        else s.placeholderWidthStyle,
      lastDimensions := some m.rootDims,
      counterResetStyle := some ("overflow-count " ++ toString overflowing.length),
      overflowCountProp := some (toString overflowing.length) }
  let (s2, events) :=
    if hasOverflow then updateMinimumReached visible.length s1 else (s1, [])
  ⟨{ s2 with observersConnected := true }, events, visible, overflowing⟩

/-- `OverflowList.#reset`: disconnect both observers (resetting the `ResizeNotifier`
flag), move every item back to the default slot, remove the fixed list height, and
zero the `--overflow-count` custom property. -/
def resetOL (s : OLState) : OLState :=
  { s with observersConnected := false, resizeHasFired := false,
           overflowSlot := [],
           listHeightStyle := none,
           overflowCountProp := some "0" }

/-- `attributeChangedCallback` for the `disabled` attribute: the value `"true"` resets
the list, any other value triggers a reflow (with no forced element). Other attribute
names have no handler. -/
def attributeChangedCallback (name : String) (newValue : Option String)
    (m : Measurement) (s : OLState) : OLState × List Bool :=
  if name = "disabled" then
    if newValue = some "true" then (resetOL s, [])
    else
      let o := reflowItems m none s
      (o.state, o.events)
  else (s, [])

/-- `setAttribute` on the overflow list: record the attribute value, then run
`attributeChangedCallback` when the name is one of `observedAttributes`
(`disabled`, `minimum-items`). -/
def setAttributeOL (name v : String) (m : Measurement) (s : OLState) : OLState × List Bool :=
  let s1 :=
    if name = "disabled" then { s with disabledAttr := some v }
    else if name = "minimum-items" then { s with minimumItemsAttr := some v }
    else s
  if name = "disabled" || name = "minimum-items" then
    attributeChangedCallback name (some v) m s1
  else (s1, [])

/-- `OverflowList.showAll()`: zero the placeholder's width, hide it via
`display: none`, and set `disabled="true"` (which resets the list through
`attributeChangedCallback`). -/
def showAll (m : Measurement) (s : OLState) : OLState × List Bool :=
  let s := { s with placeholderWidthStyle := some "0", placeholderDisplayStyle := some "none" }
  setAttributeOL "disabled" "true" m s

/-- Delivery of one resize observation: nothing is delivered when the resize observer
is disconnected; the `ResizeNotifier` swallows the first callback after observing;
`#handleChange` skips zero or unchanged (rounded) dimensions and otherwise schedules a
reflow, modelled synchronously. Returns the new state and whether a reflow ran. -/
def resizeNotify (dims : Nat × Nat) (m : Measurement) (s : OLState) : OLState × Bool :=
  if !s.observersConnected then (s, false)
  else if !s.resizeHasFired then ({ s with resizeHasFired := true }, false)
  else if dims.1 = 0 || dims.2 = 0 || s.lastDimensions == some dims then (s, false)
  else
    let s := { s with lastDimensions := some dims }
    let o := reflowItems m none s
    (o.state, true)

/-- A sequence of resize deliveries, each with its own geometry; returns the final
state and, for each delivery, whether it triggered a reflow. -/
def runResizes : List ((Nat × Nat) × Measurement) → OLState → OLState × List Bool
  | [], s => (s, [])
  | r :: rest, s =>
    let (s1, b) := resizeNotify r.1 r.2 s
    let (s2, bs) := runResizes rest s1
    (s2, b :: bs)

/-! ## Component.connectedCallback -/

/-- An initialization side effect observable while a component attaches. -/
inductive InitEffect : Type where
  | hydratedShadowRoot
  | registeredEventListeners
  | setRefs (refs : JsObj RefValue)
  | scheduledObservers
  | threwMissingRef (refName componentTag : String)
deriving DecidableEq, Repr

/-- `Component.connectedCallback` as an effect trace: `super.connectedCallback()`
(hydrating a declarative shadow root when a template is present), then
`registerEventListeners()` (a real side effect only on its first call), then
`#updateRefs()` — which either throws a `MissingRefError` or replaces `this.refs` and
schedules the mutation observers. Returns the new registry state and the ordered
effect list. -/
def connectedCallbackTrace (sys : EventRegistry) (hasShadowTemplate : Bool)
    (anc0 : List DomNode) (this : DomNode) (required : List String) :
    EventRegistry × List InitEffect :=
  let superEffects := if hasShadowTemplate then [InitEffect.hydratedShadowRoot] else []
  let regEffects := if sys.flagged then [] else [InitEffect.registeredEventListeners]
  let sys' := registerEventListeners sys
  match updateRefs anc0 this required with
  | Except.error e =>
    (sys', superEffects ++ regEffects ++ [InitEffect.threwMissingRef e.refName e.componentTag])
  | Except.ok refs =>
    (sys', superEffects ++ regEffects ++ [InitEffect.setRefs refs, InitEffect.scheduledObservers])

/-! ## Concrete instances used to exercise the definitions -/

/-- The `<span ref="b">` nested inside the inner component of the spec's example. -/
def exRefB : DomNode := DomNode.mk "span" false (some "b") DomForest.nil

/-- An `<inner-component>` (recognized by tag suffix) wrapping `exRefB`. -/
def exInner : DomNode := DomNode.mk "inner-component" false none (domForest [exRefB])

/-- A `<div ref="a">` that contains the nested component. -/
def exRefA : DomNode := DomNode.mk "div" false (some "a") (domForest [exInner])

/-- The outer component of the spec's example `<outer><ref-a><inner-component>
<ref-b></inner-component></ref-a></outer>`. -/
def exOuter : DomNode := DomNode.mk "outer-component" true none (domForest [exRefA])

/-- A component subtree with two uniquely named refs and three `items[]` refs. -/
def exNav : DomNode :=
  DomNode.mk "nav-component" true none
    (domForest
      [DomNode.mk "div" false (some "a") DomForest.nil,
        DomNode.mk "li" false (some "items[]") DomForest.nil,
        DomNode.mk "div" false (some "b") DomForest.nil,
        DomNode.mk "li" false (some "items[]") DomForest.nil,
        DomNode.mk "li" false (some "items[]") DomForest.nil])

/-- A component whose subtree carries only a `title` ref, used with a required ref
list demanding a `content` ref. -/
def exDemo : DomNode :=
  DomNode.mk "demo-component" true none
    (domForest [DomNode.mk "div" false (some "title") DomForest.nil])

/-- A plain button carrying a binding attribute. -/
def exButton : DomNode := DomNode.mk "button" false none DomForest.nil

/-- The component enclosing `exButton`. -/
def exComp : DomNode := DomNode.mk "product-form-component" true none (domForest [exButton])

/-- A dispatch context in which no selector matches and the element's chain is the
button inside its component. -/
def exEnv : DispatchEnv := ⟨fun _ => none, fun _ => none, [exButton, exComp]⟩

/-- A method table: `save` and `setQty` are normal methods, `boom` always throws,
`version` is a non-function property, everything else is absent. -/
def exMethods : DomNode → String → MethodSlot := fun _ name =>
  if name = "save" then MethodSlot.fn none
  else if name = "setQty" then MethodSlot.fn none
  else if name = "boom" then MethodSlot.fn (some "boom failed")
  else if name = "version" then MethodSlot.notFunction
  else MethodSlot.absent

/-- An overflow list with three items, `minimum-items="2"`, at rest. -/
def exOL : OLState :=
  { items := [1, 2, 3], overflowSlot := [], moreHidden := false,
    placeholderHidden := true, placeholderWidthStyle := none,
    placeholderDisplayStyle := none, listHeightStyle := none,
    listOverflowStyle := none, counterResetStyle := none,
    overflowCountProp := none, minimumItemsAttr := some "2",
    minimumReachedAttr := false, disabledAttr := none,
    observersConnected := true, resizeHasFired := true, lastDimensions := none }

/-- Geometry in which every item fits. -/
def exMeasAll : Measurement :=
  ⟨some 20, (300, 20), fun _ => true, fun _ => true, fun _ => 50⟩

/-- Geometry in which only item 1 fits, in both measurement passes. -/
def exMeasOne : Measurement :=
  ⟨some 20, (100, 20), fun i => i == 1, fun i => i == 1, fun _ => 50⟩

/-! ## Theorems -/

/-! Helper lemmas about `updateMinimumReached` and the shape of a `reflowItems`
outcome, shared by the overflow-list claims. -/

theorem updateMinimumReached_fst_overflowSlot (cnt : Nat) (s : OLState) :
    (updateMinimumReached cnt s).1.overflowSlot = s.overflowSlot := by
  unfold updateMinimumReached
  rcases h : minimumItems s <;> simp

theorem updateMinimumReached_snd_eq (cnt : Nat) (s : OLState) :
    (updateMinimumReached cnt s).2 =
      (match minimumItems s with
        | MinItems.null => []
        | MinItems.nan => [false]
        | MinItems.num n => [decide ((cnt : Int) < n)]) := by
  unfold updateMinimumReached
  rcases h : minimumItems s <;> simp

theorem updateMinimumReached_attr_eq (cnt : Nat) (s : OLState) :
    (updateMinimumReached cnt s).1.minimumReachedAttr =
      (match minimumItems s with
        | MinItems.null => s.minimumReachedAttr
        | MinItems.nan => false
        | MinItems.num n => decide ((cnt : Int) < n)) := by
  unfold updateMinimumReached
  rcases h : minimumItems s <;> simp

theorem reflowItems_visibleElements (m : Measurement) (forced : Option Item)
    (s : OLState) :
    (reflowItems m forced s).visibleElements = reflowVisible m forced s.items := by
  simp only [reflowItems]

theorem reflowItems_overflowingElements (m : Measurement) (forced : Option Item)
    (s : OLState) :
    (reflowItems m forced s).overflowingElements = reflowOverflowing m forced s.items := by
  simp only [reflowItems]

theorem reflowItems_overflowSlot (m : Measurement) (forced : Option Item) (s : OLState) :
    (reflowItems m forced s).state.overflowSlot = reflowOverflowing m forced s.items := by
  simp only [reflowItems]
  split
  · rw [updateMinimumReached_fst_overflowSlot]
  · rfl

theorem reflowItems_events (m : Measurement) (forced : Option Item) (s : OLState) :
    (reflowItems m forced s).events =
      (if 0 < (reflowOverflowing m forced s.items).length then
        match minimumItems s with
        | MinItems.null => ([] : List Bool)
        | MinItems.nan => [false]
        | MinItems.num n => [decide (((reflowVisible m forced s.items).length : Int) < n)]
      else []) := by
  simp only [reflowItems]
  split
  · rw [updateMinimumReached_snd_eq]
    simp_all [minimumItems]
  · simp_all

theorem reflowItems_minimumReachedAttr (m : Measurement) (forced : Option Item)
    (s : OLState) :
    (reflowItems m forced s).state.minimumReachedAttr =
      (if 0 < (reflowOverflowing m forced s.items).length then
        match minimumItems s with
        | MinItems.null => s.minimumReachedAttr
        | MinItems.nan => false
        | MinItems.num n => decide (((reflowVisible m forced s.items).length : Int) < n)
      else s.minimumReachedAttr) := by
  simp only [reflowItems]
  split
  · rw [updateMinimumReached_attr_eq]
    simp_all [minimumItems]
  · simp_all

theorem reflowVisible_forced (m : Measurement) (f : Item) (elements : List Item) :
    reflowVisible m (some f) elements =
      (if (elements.filter m.vis2).contains f
        then (elements.filter m.vis2).erase f ++ [f]
        else elements.filter m.vis2) := by
  simp only [reflowVisible, Option.isSome_some, Bool.or_true, if_true]

/-- Claim C1 counterexample: with items `[1, 2, 3]`, a reflow forced to keep item `2`
visible, and a remeasurement pass in which `2` lost visibility (only item `1`
measures visible), the final visible set is `[1]` — item `2` is not appended as the
last visible item but moved to the overflow slot together with `3`. -/
theorem forced_item_lost_visibility_counterexample :
    (reflowItems exMeasOne (some 2) exOL).visibleElements = [1] ∧
      (reflowItems exMeasOne (some 2) exOL).visibleElements.getLast? ≠ some 2 ∧
      (reflowItems exMeasOne (some 2) exOL).state.overflowSlot = [2, 3] := by
  refine ⟨by decide, by decide, by decide⟩

/-- Claim C1 (amended): in a reflow with a forced last-visible element, if the forced
element is still in the remeasured visible set it is spliced out of its position and
appended at the end (so it is the last visible item and not in the overflow slot);
but if the forced element lost visibility in the remeasurement pass, it is left out
of the visible set and moved to the overflow slot. -/
theorem forced_item_reinsertion (m : Measurement) (s : OLState) (f : Item)
    (hf : f ∈ s.items) :
    (f ∈ s.items.filter m.vis2 →
      (reflowItems m (some f) s).visibleElements =
          (s.items.filter m.vis2).erase f ++ [f] ∧
        (reflowItems m (some f) s).visibleElements.getLast? = some f ∧
        f ∉ (reflowItems m (some f) s).state.overflowSlot) ∧
    (f ∉ s.items.filter m.vis2 →
      (reflowItems m (some f) s).visibleElements = s.items.filter m.vis2 ∧
        f ∈ (reflowItems m (some f) s).state.overflowSlot) := by
  have hvis := reflowItems_visibleElements m (some f) s
  have hslot := reflowItems_overflowSlot m (some f) s
  rw [reflowVisible_forced] at hvis
  constructor
  · intro hmem
    have hc : (s.items.filter m.vis2).contains f = true := by
      simp only [List.elem_eq_mem, decide_eq_true_eq]
      exact hmem
    rw [hc] at hvis
    simp only [if_true] at hvis
    refine ⟨hvis, by rw [hvis]; exact List.getLast?_concat _, ?_⟩
    rw [hslot]
    unfold reflowOverflowing
    intro habs
    have h2 := (List.mem_filter.mp habs).2
    simp only [reflowVisible_forced, hc, if_true] at h2
    simp at h2
  · intro hmem
    have hc : (s.items.filter m.vis2).contains f = false := by
      simp only [List.elem_eq_mem, decide_eq_false_iff_not]
      exact hmem
    rw [hc] at hvis
    simp only [Bool.false_eq_true, if_false] at hvis
    refine ⟨hvis, ?_⟩
    rw [hslot]
    unfold reflowOverflowing
    refine List.mem_filter.mpr ⟨hf, ?_⟩
    simp only [reflowVisible_forced, hc, Bool.false_eq_true, if_false]
    rfl

/-- Witness for C1 (amended): both branches exercised at concrete inputs — item `1`
stays visible and is reinserted last; item `2` loses visibility and overflows. -/
theorem forced_item_reinsertion_witness :
    (1 ∈ exOL.items.filter exMeasOne.vis2 →
      (reflowItems exMeasOne (some 1) exOL).visibleElements =
          (exOL.items.filter exMeasOne.vis2).erase 1 ++ [1] ∧
        (reflowItems exMeasOne (some 1) exOL).visibleElements.getLast? = some 1 ∧
        1 ∉ (reflowItems exMeasOne (some 1) exOL).state.overflowSlot) ∧
    (1 ∉ exOL.items.filter exMeasOne.vis2 →
      (reflowItems exMeasOne (some 1) exOL).visibleElements =
          exOL.items.filter exMeasOne.vis2 ∧
        1 ∈ (reflowItems exMeasOne (some 1) exOL).state.overflowSlot) :=
  forced_item_reinsertion exMeasOne exOL 1 (by decide)

/-- Claim C2 counterexample: with `minimum-items="2"` and three items, a reflow
leaving only item `1` visible sets `minimum-reached` and dispatches `true`; but the
next reflow, in which the container regained enough space for all three items (3 ≥ 2
visible), dispatches nothing and leaves the `minimum-reached` attribute set — the
code only updates the minimum-reached state when at least one item overflows. -/
theorem minimum_reached_stale_counterexample :
    (reflowItems exMeasOne none exOL).events = [true] ∧
      (reflowItems exMeasOne none exOL).state.minimumReachedAttr = true ∧
      (reflowItems exMeasAll none (reflowItems exMeasOne none exOL).state).visibleElements.length = 3 ∧
      (reflowItems exMeasAll none (reflowItems exMeasOne none exOL).state).events = [] ∧
      (reflowItems exMeasAll none (reflowItems exMeasOne none exOL).state).state.minimumReachedAttr = true := by
  refine ⟨by decide, by decide, by decide, by decide, by decide⟩

/-- Claim C2 (amended): with `minimum-items="2"`, a reflow that leaves at least one
item overflowing and at most 1 item visible sets the `minimum-reached` attribute and
dispatches the overflow-minimum notification with `minimumReached: true`; a reflow
that leaves at least one item overflowing and 2 or more items visible removes the
attribute and dispatches `minimumReached: false`; but a reflow with no overflowing
items dispatches nothing and leaves the attribute unchanged. -/
theorem minimum_reached_updates_only_with_overflow (m : Measurement)
    (forced : Option Item) (s : OLState) (h2 : s.minimumItemsAttr = some "2") :
    ((reflowItems m forced s).overflowingElements ≠ [] →
        (reflowItems m forced s).visibleElements.length ≤ 1 →
        (reflowItems m forced s).state.minimumReachedAttr = true ∧
          (reflowItems m forced s).events = [true]) ∧
    ((reflowItems m forced s).overflowingElements ≠ [] →
        2 ≤ (reflowItems m forced s).visibleElements.length →
        (reflowItems m forced s).state.minimumReachedAttr = false ∧
          (reflowItems m forced s).events = [false]) ∧
    ((reflowItems m forced s).overflowingElements = [] →
        (reflowItems m forced s).state.minimumReachedAttr = s.minimumReachedAttr ∧
          (reflowItems m forced s).events = []) := by
  have hmi : minimumItems s = MinItems.num 2 := by
    unfold minimumItems
    rw [h2]
    rfl
  have hover := reflowItems_overflowingElements m forced s
  have hvis := reflowItems_visibleElements m forced s
  have hattr := reflowItems_minimumReachedAttr m forced s
  have hev := reflowItems_events m forced s
  rw [hmi] at hattr hev
  refine ⟨?_, ?_, ?_⟩
  · intro hne hle
    rw [hover] at hne
    have hpos : 0 < (reflowOverflowing m forced s.items).length :=
      List.length_pos.mpr hne
    rw [hvis] at hle
    have hlt : ((reflowVisible m forced s.items).length : Int) < 2 := by omega
    rw [hattr, hev]
    simp only [if_pos hpos]
    simp [hlt]
  · intro hne hge
    rw [hover] at hne
    have hpos : 0 < (reflowOverflowing m forced s.items).length :=
      List.length_pos.mpr hne
    rw [hvis] at hge
    have hnlt : ¬ ((reflowVisible m forced s.items).length : Int) < 2 := by omega
    rw [hattr, hev]
    simp only [if_pos hpos]
    simp [hnlt]
  · intro hnil
    rw [hover] at hnil
    have hz : ¬ 0 < (reflowOverflowing m forced s.items).length := by
      rw [hnil]
      simp
    rw [hattr, hev, if_neg hz, if_neg hz]
    exact ⟨rfl, rfl⟩

/-- Witness for C2 (amended) on the concrete three-item list. -/
theorem minimum_reached_updates_only_with_overflow_witness :
    ((reflowItems exMeasOne none exOL).overflowingElements ≠ [] →
        (reflowItems exMeasOne none exOL).visibleElements.length ≤ 1 →
        (reflowItems exMeasOne none exOL).state.minimumReachedAttr = true ∧
          (reflowItems exMeasOne none exOL).events = [true]) ∧
    ((reflowItems exMeasOne none exOL).overflowingElements ≠ [] →
        2 ≤ (reflowItems exMeasOne none exOL).visibleElements.length →
        (reflowItems exMeasOne none exOL).state.minimumReachedAttr = false ∧
          (reflowItems exMeasOne none exOL).events = [false]) ∧
    ((reflowItems exMeasOne none exOL).overflowingElements = [] →
        (reflowItems exMeasOne none exOL).state.minimumReachedAttr = exOL.minimumReachedAttr ∧
          (reflowItems exMeasOne none exOL).events = []) :=
  minimum_reached_updates_only_with_overflow exMeasOne none exOL (by decide)

/-- Claim C3 counterexample: a component with a required ref `content` absent from
its subtree, attached while the event registry is still uninitialized, produces the
effect trace `[registeredEventListeners, threwMissingRef ...]` — a real
initialization side effect (registering the document listeners) runs before the
missing-ref throw, so the throw does not precede every other initialization side
effect of attaching the component. -/
theorem throw_not_before_all_side_effects_counterexample :
    (connectedCallbackTrace initialRegistry false [] exDemo ["content"]).2 =
      [InitEffect.registeredEventListeners,
        InitEffect.threwMissingRef "content" "demo-component"] ∧
      (connectedCallbackTrace initialRegistry false [] exDemo ["content"]).2.head? ≠
        some (InitEffect.threwMissingRef "content" "demo-component") := by
  refine ⟨by decide, by decide⟩

/-- Claim C3 (amended): when some required ref name is absent from the refs built by
the scan, `#updateRefs` throws a `MissingRefError` whose message names the missing
ref and the component's (lowercased) tag, the refs mapping is never replaced and the
observers are never scheduled (the trace ends in the throw with no `setRefs` or
`scheduledObservers` effect) — but shadow-root hydration and first-time global
event-listener registration do run before the throw. -/
theorem missing_ref_throw_ordering (sys : EventRegistry) (hasT : Bool)
    (anc0 : List DomNode) (self : DomNode) (required : List String)
    (h : ∃ r ∈ required, (getKey? (buildRefs (collectRefElements anc0 self)) r).isNone) :
    ∃ e : MissingRefError,
      updateRefs anc0 self required = Except.error e ∧
      e.componentTag = self.tag ∧
      e.message =
        "Required ref \"" ++ e.refName ++ "\" not found in component " ++
          strToLower self.tag ∧
      (∀ refs, InitEffect.setRefs refs ∉ (connectedCallbackTrace sys hasT anc0 self required).2) ∧
      InitEffect.scheduledObservers ∉ (connectedCallbackTrace sys hasT anc0 self required).2 ∧
      (connectedCallbackTrace sys hasT anc0 self required).2.getLast? =
        some (InitEffect.threwMissingRef e.refName e.componentTag) := by
  obtain ⟨r0, hr0⟩ : ∃ r0, required.find?
      (fun r => (getKey? (buildRefs (collectRefElements anc0 self)) r).isNone) = some r0 := by
    obtain ⟨r, hrmem, hrnone⟩ := h
    have : (required.find?
        (fun r => (getKey? (buildRefs (collectRefElements anc0 self)) r).isNone)).isSome :=
      List.find?_isSome.mpr ⟨r, hrmem, hrnone⟩
    exact Option.isSome_iff_exists.mp this
  have herr : updateRefs anc0 self required =
      Except.error ⟨r0, self.tag⟩ := by
    simp only [updateRefs]
    rw [hr0]
  refine ⟨⟨r0, self.tag⟩, herr, rfl, rfl, ?_, ?_, ?_⟩ <;>
    · unfold connectedCallbackTrace
      rw [herr]
      cases hasT <;> rcases sys with ⟨_ | _, ls⟩ <;> simp

/-- Witness for C3 (amended): the demo component missing its `content` ref. -/
theorem missing_ref_throw_ordering_witness :
    ∃ e : MissingRefError,
      updateRefs [] exDemo ["content"] = Except.error e ∧
      e.componentTag = exDemo.tag ∧
      e.message =
        "Required ref \"" ++ e.refName ++ "\" not found in component " ++
          strToLower exDemo.tag ∧
      (∀ refs, InitEffect.setRefs refs ∉
        (connectedCallbackTrace initialRegistry false [] exDemo ["content"]).2) ∧
      InitEffect.scheduledObservers ∉
        (connectedCallbackTrace initialRegistry false [] exDemo ["content"]).2 ∧
      (connectedCallbackTrace initialRegistry false [] exDemo ["content"]).2.getLast? =
        some (InitEffect.threwMissingRef e.refName e.componentTag) :=
  missing_ref_throw_ordering initialRegistry false [] exDemo ["content"] (by decide)

/-- Claim C8: the event-delegation registry is initialized exactly once per process:
starting from the uninitialized registry, any number `n ≥ 1` of calls to
`registerEventListeners` leaves the same state as a single call, and that state has
exactly one capturing document listener per supported event kind. -/
theorem registry_initializes_once (n : Nat) (h : 1 ≤ n) :
    registerEventListeners^[n] initialRegistry = registerEventListeners^[1] initialRegistry ∧
      ∀ e ∈ delegatedEvents ++ expensiveEvents,
        (registerEventListeners^[n] initialRegistry).listeners.count e = 1 := by
  have hfix : ∀ m : Nat,
      registerEventListeners^[m] (registerEventListeners initialRegistry) =
        registerEventListeners initialRegistry := by
    intro m
    induction m with
    | zero => rfl
    | succ m ih =>
      rw [Function.iterate_succ_apply,
        show registerEventListeners (registerEventListeners initialRegistry) =
          registerEventListeners initialRegistry from rfl]
      exact ih
  obtain ⟨m, rfl⟩ : ∃ m, n = m + 1 := ⟨n - 1, by omega⟩
  constructor
  · rw [Function.iterate_succ_apply, hfix, Function.iterate_one]
  · rw [Function.iterate_succ_apply, hfix]
    decide

/-- Witness for C8 at `n = 3`. -/
theorem registry_initializes_once_witness :
    registerEventListeners^[3] initialRegistry = registerEventListeners^[1] initialRegistry ∧
      ∀ e ∈ delegatedEvents ++ expensiveEvents,
        (registerEventListeners^[3] initialRegistry).listeners.count e = 1 :=
  registry_initializes_once 3 (by norm_num)

/-- Claim C9: after `showAll()` the overflow slot is empty, the placeholder is
zero-width and hidden via `display: none`, the element carries `disabled="true"`, and
any subsequent sequence of resize deliveries (with arbitrary geometry) leaves the
state unchanged and triggers no reflow. -/
theorem showAll_permanently_disables_reflow (m : Measurement) (s : OLState)
    (rs : List ((Nat × Nat) × Measurement)) :
    (showAll m s).1.overflowSlot = [] ∧
      (showAll m s).1.placeholderWidthStyle = some "0" ∧
      (showAll m s).1.placeholderDisplayStyle = some "none" ∧
      (showAll m s).1.disabledAttr = some "true" ∧
      runResizes rs (showAll m s).1 = ((showAll m s).1, List.replicate rs.length false) := by
  have hshow : (showAll m s).1 =
      resetOL { s with placeholderWidthStyle := some "0",
                       placeholderDisplayStyle := some "none",
                       disabledAttr := some "true" } := by
    simp [showAll, setAttributeOL, attributeChangedCallback]
  refine ⟨by rw [hshow]; rfl, by rw [hshow]; rfl, by rw [hshow]; rfl, by rw [hshow]; rfl, ?_⟩
  have hconn : (showAll m s).1.observersConnected = false := by rw [hshow]; rfl
  induction rs with
  | nil => rfl
  | cons r rest ih =>
    simp only [runResizes, resizeNotify, hconn, Bool.not_false, if_pos]
    rw [ih]
    simp [List.replicate]

/-- Claim C10: a dispatch whose target does not resolve to a `Component` instance, or
whose method segment is missing or empty, or whose resolved instance holds nothing
callable under the method name, completes as a silent no-op: no invocation and no
console output. -/
theorem dispatch_is_silent_noop (env : DispatchEnv) (methods : DomNode → String → MethodSlot)
    (value : String) (tie : Bool)
    (h : (∀ i, resolveInstance env (selectorSegment value) = some i → i.isInst = false) ∨
      methodSegment? value = none ∨ methodSegment? value = some "" ∨
      (∃ i m0, resolveInstance env (selectorSegment value) = some i ∧
        methodSegment? value = some m0 ∧
        (methods i (stripQuery m0) = MethodSlot.absent ∨
          methods i (stripQuery m0) = MethodSlot.notFunction))) :
    dispatchEvent env methods value tie = (DispatchOutcome.skipped, []) := by
  rcases hres : resolveInstance env (selectorSegment value) with _ | i
  · simp [dispatchEvent, hres]
  · rcases hinst : i.isInst with _ | _
    · simp [dispatchEvent, hres, hinst]
    · rcases h with h1 | h2 | h3 | ⟨i', m0, hres', hm0, hslot⟩
      · rw [h1 i hres] at hinst; cases hinst
      · simp [dispatchEvent, hres, hinst, h2]
      · simp [dispatchEvent, hres, hinst, h3]
      · rw [hres'] at hres
        obtain rfl : i' = i := Option.some.inj hres
        by_cases hz : m0 = ""
        · subst hz; simp [dispatchEvent, hres', hinst, hm0]
        · rcases hslot with hs | hs <;>
            simp [dispatchEvent, hres', hinst, hm0, hz, hs]

/-- Witness for C10: dispatching `/missing` on a component without such a method. -/
theorem dispatch_is_silent_noop_witness :
    dispatchEvent exEnv exMethods "/missing" true = (DispatchOutcome.skipped, []) :=
  dispatch_is_silent_noop exEnv exMethods "/missing" true
    (Or.inr (Or.inr (Or.inr ⟨exComp, "missing", rfl, rfl, Or.inl rfl⟩)))

/-- Claim C7: an exception thrown by the invoked component method is caught and
logged: the raw callback invocation errors, but the listener body returns normally
with the `caught` outcome and the error pushed to the console log, so the exception
never propagates out of the registry's listener. -/
theorem handler_exception_is_caught (env : DispatchEnv)
    (methods : DomNode → String → MethodSlot) (value : String) (tie : Bool)
    (inst : DomNode) (m0 e : String)
    (hres : resolveInstance env (selectorSegment value) = some inst)
    (hinst : inst.isInst = true)
    (hm : methodSegment? value = some m0)
    (hm0 : m0 ≠ "")
    (hthrow : methods inst (stripQuery m0) = MethodSlot.fn (some e)) :
    ∃ args, invokeCallback inst (stripQuery m0) args (some e) = Except.error e ∧
      dispatchEvent env methods value tie =
        (DispatchOutcome.caught inst (stripQuery m0) args e, [e]) := by
  refine ⟨match lastDataSegment value with
    | some d => [CallArg.data (parseData d), CallArg.event (!tie)]
    | none => [CallArg.event (!tie)], rfl, ?_⟩
  cases hdata : lastDataSegment value <;>
    simp [dispatchEvent, hres, hinst, hm, hm0, hthrow, hdata, invokeCallback]

/-- Witness for C7: dispatching `/boom` whose method always throws. -/
theorem handler_exception_is_caught_witness :
    ∃ args, invokeCallback exComp (stripQuery "boom") args (some "boom failed") =
        Except.error "boom failed" ∧
      dispatchEvent exEnv exMethods "/boom" true =
        (DispatchOutcome.caught exComp (stripQuery "boom") args "boom failed",
          ["boom failed"]) :=
  handler_exception_is_caught exEnv exMethods "/boom" true exComp "boom" "boom failed"
    rfl rfl rfl (by decide) rfl

/-- Claim C6: an element bound with `on:click="/save"` invokes `save` on the nearest
enclosing component with the (possibly proxy-wrapped) event as sole argument, and one
bound with `on:click="/setQty?amount=2"` invokes `setQty` with the parsed data object
`{amount: 2}` as leading argument followed by the event. -/
theorem delegated_dispatch_examples (env : DispatchEnv)
    (methods : DomNode → String → MethodSlot) (tie : Bool) (inst : DomNode)
    (hres : closestComponent env.chain = some inst)
    (hinst : inst.isInst = true)
    (hsave : methods inst "save" = MethodSlot.fn none)
    (hset : methods inst "setQty" = MethodSlot.fn none) :
    dispatchEvent env methods "/save" tie =
      (DispatchOutcome.invoked inst "save" [CallArg.event (!tie)], []) ∧
    dispatchEvent env methods "/setQty?amount=2" tie =
      (DispatchOutcome.invoked inst "setQty"
        [CallArg.data (JsData.object [("amount", JsPrim.number 2)]),
          CallArg.event (!tie)], []) := by
  have hr1 : resolveInstance env (selectorSegment "/save") = some inst := by
    rw [show selectorSegment "/save" = "" from rfl]
    simpa [resolveInstance] using hres
  have hr2 : resolveInstance env (selectorSegment "/setQty?amount=2") = some inst := by
    rw [show selectorSegment "/setQty?amount=2" = "" from rfl]
    simpa [resolveInstance] using hres
  constructor
  · simp [dispatchEvent, hr1, hinst,
      show methodSegment? "/save" = some "save" from rfl,
      show lastDataSegment "/save" = none from rfl,
      show stripQuery "save" = "save" from rfl, hsave, invokeCallback]
  · simp [dispatchEvent, hr2, hinst,
      show methodSegment? "/setQty?amount=2" = some "setQty?amount=2" from rfl,
      show lastDataSegment "/setQty?amount=2" = some "?amount=2" from rfl,
      show stripQuery "setQty?amount=2" = "setQty" from rfl, hset, invokeCallback,
      show parseData "?amount=2" = JsData.object [("amount", JsPrim.number 2)] from rfl]

/-- Witness for C6 in the concrete button-in-component context. -/
theorem delegated_dispatch_examples_witness :
    dispatchEvent exEnv exMethods "/save" true =
      (DispatchOutcome.invoked exComp "save" [CallArg.event false], []) ∧
    dispatchEvent exEnv exMethods "/setQty?amount=2" true =
      (DispatchOutcome.invoked exComp "setQty"
        [CallArg.data (JsData.object [("amount", JsPrim.number 2)]),
          CallArg.event false], []) :=
  delegated_dispatch_examples exEnv exMethods true exComp rfl rfl rfl rfl

/-! Helper lemma for the ref-scan claims: the filtered scan of a forest agrees with
the spec-side traversal, for any ancestor chain. -/

theorem collect_eq_spec_aux (self : DomNode) :
    (fr : DomForest) → (anc : List DomNode) → sizeOf fr < sizeOf self →
      ((descsForest anc fr).filter
          (fun pr => hasRefAttr pr.1 && (closestComponent pr.2 == some self))).map Prod.fst
        = (if closestComponent anc == some self then specOwnRefElements fr else [])
  | DomForest.nil, anc, _ => by
    simp only [descsForest, List.filter_nil, List.map_nil, specOwnRefElements]
    split <;> rfl
  | DomForest.cons (DomNode.mk t i r cs) rest, anc, hlt => by
    have hsz : sizeOf (DomNode.mk t i r cs) < sizeOf self ∧
        sizeOf cs < sizeOf self ∧ sizeOf rest < sizeOf self := by
      simp at hlt
      simp
      omega
    have hne : DomNode.mk t i r cs ≠ self := by
      intro he
      have := hsz.1
      rw [he] at this
      omega
    have ih1 := collect_eq_spec_aux self cs (DomNode.mk t i r cs :: anc) hsz.2.1
    have ih2 := collect_eq_spec_aux self rest anc hsz.2.2
    rcases hcomp : isComponentNode (DomNode.mk t i r cs) with _ | _
    · have hcc : closestComponent (DomNode.mk t i r cs :: anc) = closestComponent anc := by
        simp [closestComponent, hcomp]
      rw [hcc] at ih1
      rcases hanc : (closestComponent anc == some self) with _ | _
      · rw [hanc] at ih1 ih2
        simp only [Bool.false_eq_true, if_false] at ih1 ih2
        simp only [descsForest, descsNode, List.filter_cons, List.filter_append, hanc,
          Bool.and_false, Bool.false_eq_true, if_false, List.map_append, ih1, ih2,
          List.append_nil]
      · rw [hanc] at ih1 ih2
        simp only [if_true] at ih1 ih2
        simp only [descsForest, descsNode, List.filter_cons, List.filter_append, hanc,
          Bool.and_true, List.map_append, ih1, ih2, if_true]
        rcases href : hasRefAttr (DomNode.mk t i r cs) with _ | _
        · simp [specOwnRefElements, specOwnRefNode, hcomp, href, ih1, ih2]
        · simp [specOwnRefElements, specOwnRefNode, hcomp, href, ih1, ih2]
    · have hcc : closestComponent (DomNode.mk t i r cs :: anc) =
          some (DomNode.mk t i r cs) := by
        simp [closestComponent, hcomp]
      have hbeq : ((some (DomNode.mk t i r cs) : Option DomNode) == some self) = false := by
        rw [beq_eq_false_iff_ne]
        intro he
        exact hne (Option.some.inj he)
      rw [hcc, hbeq] at ih1
      simp only [Bool.false_eq_true, if_false] at ih1
      rcases hanc : (closestComponent anc == some self) with _ | _
      · rw [hanc] at ih2
        simp only [Bool.false_eq_true, if_false] at ih2
        simp only [descsForest, descsNode, List.filter_cons, List.filter_append, hanc,
          Bool.and_false, Bool.false_eq_true, if_false, List.map_append, ih1, ih2,
          List.append_nil]
      · rw [hanc] at ih2
        simp only [if_true] at ih2
        simp only [descsForest, descsNode, List.filter_cons, List.filter_append, hanc,
          Bool.and_true, List.map_append, ih1, ih2, if_true]
        rcases href : hasRefAttr (DomNode.mk t i r cs) with _ | _
        · simp [specOwnRefElements, specOwnRefNode, hcomp, href, ih1, ih2]
        · simp [specOwnRefElements, specOwnRefNode, hcomp, href, ih1, ih2]
termination_by fr => sizeOf fr
decreasing_by
  all_goals first
  | (simp; omega)
  | simp

/-- Claim C5: the ref scan of a component collects exactly the ref-attributed
descendants whose nearest enclosing component ancestor is that instance: the
source's filtered query (`#isDescendant` over `getClosestComponent`) equals the
spec-side traversal that walks the subtree in document order and never descends into
a nested component, so ref elements inside nested components are never collected. -/
theorem ref_scan_matches_nearest_component_spec (anc0 : List DomNode) (self : DomNode)
    (h : self.isInst = true) :
    collectRefElements anc0 self = specOwnRefElements self.children := by
  obtain ⟨t, i, r, cs⟩ := self
  have hi : i = true := h
  subst hi
  unfold collectRefElements
  have hlt : sizeOf cs < sizeOf (DomNode.mk t true r cs) := by
    simp
  rw [show (DomNode.mk t true r cs).children = cs from rfl]
  rw [collect_eq_spec_aux (DomNode.mk t true r cs) cs
    (DomNode.mk t true r cs :: anc0) hlt]
  have hcomp : isComponentNode (DomNode.mk t true r cs) = true := by
    simp [isComponentNode, DomNode.isInst]
  simp [closestComponent, hcomp]

/-- Witness for C5 on the spec's own example: the scan of the outer component
collects only the `ref="a"` element, not the `ref="b"` element nested inside the
inner component. -/
theorem ref_scan_matches_nearest_component_spec_witness :
    exOuter.isInst = true ∧
      collectRefElements [] exOuter = specOwnRefElements exOuter.children ∧
      collectRefElements [] exOuter = [exRefA] :=
  ⟨rfl, ref_scan_matches_nearest_component_spec [] exOuter rfl, by decide⟩

/-! Helper lemmas about the JavaScript-object model and the refs-building fold,
used by the C4 claim. -/

theorem getKey?_setKey_self {α : Type} (m : JsObj α) (k : String) (v : α) :
    getKey? (setKey m k v) k = some v := by
  induction m with
  | nil => simp [setKey, getKey?]
  | cons p rest ih =>
    obtain ⟨k1, v1⟩ := p
    by_cases h : k1 = k
    · subst h
      simp [setKey, getKey?]
    · simp [setKey, getKey?, h, ih]

theorem getKey?_setKey_ne {α : Type} (m : JsObj α) (k k' : String) (v : α)
    (h : k' ≠ k) :
    getKey? (setKey m k v) k' = getKey? m k' := by
  induction m with
  | nil => simp [setKey, getKey?, Ne.symm h]
  | cons p rest ih =>
    obtain ⟨k1, v1⟩ := p
    by_cases h1 : k1 = k
    · subst h1
      simp [setKey, getKey?, Ne.symm h]
    · by_cases h2 : k1 = k'
      · subst h2
        simp [setKey, getKey?, h1]
      · simp [setKey, getKey?, h1, h2, ih]

theorem map_fst_setKey {α : Type} (m : JsObj α) (k : String) (v : α) :
    (setKey m k v).map Prod.fst =
      (if k ∈ m.map Prod.fst then m.map Prod.fst else m.map Prod.fst ++ [k]) := by
  induction m with
  | nil => simp [setKey]
  | cons p rest ih =>
    obtain ⟨k1, v1⟩ := p
    by_cases h : k1 = k
    · subst h
      simp [setKey]
    · by_cases hmem : k ∈ rest.map Prod.fst <;>
        simp [setKey, h, ih, hmem, Ne.symm h]

theorem addRef_eq_setKey (refs : JsObj RefValue) (el : DomNode) :
    addRef refs el = setKey refs (refPath el)
      (if isArrayRef el then
        RefValue.array
          ((match getKey? refs (refPath el) with
            | some (RefValue.array els) => els
            | _ => []) ++ [el])
      else RefValue.single el) := by
  unfold addRef refPath isArrayRef
  by_cases h : strEndsWith (el.refAttr.getD "") "[]" <;> simp [h]

theorem map_fst_addRef (refs : JsObj RefValue) (el : DomNode) :
    (addRef refs el).map Prod.fst =
      (if refPath el ∈ refs.map Prod.fst then refs.map Prod.fst
        else refs.map Prod.fst ++ [refPath el]) := by
  rw [addRef_eq_setKey, map_fst_setKey]

theorem nodup_map_fst_foldl (L : List DomNode) :
    ∀ m : JsObj RefValue,
      (m.map Prod.fst).Nodup → ((L.foldl addRef m).map Prod.fst).Nodup := by
  induction L with
  | nil => exact fun m h => h
  | cons el L ih =>
    intro m hm
    rw [List.foldl_cons]
    apply ih
    rw [map_fst_addRef]
    split
    · exact hm
    · rename_i hnot
      rw [List.nodup_append]
      refine ⟨hm, List.nodup_singleton _, ?_⟩
      intro a ha hb
      rw [List.mem_singleton] at hb
      subst hb
      exact hnot ha

theorem mem_map_fst_foldl (L : List DomNode) :
    ∀ (m : JsObj RefValue) (k : String),
      (k ∈ (L.foldl addRef m).map Prod.fst) ↔
        (k ∈ m.map Prod.fst ∨ k ∈ L.map refPath) := by
  induction L with
  | nil => simp
  | cons el L ih =>
    intro m k
    rw [List.foldl_cons, ih, map_fst_addRef]
    split
    · rename_i hmem
      simp only [List.map_cons, List.mem_cons]
      constructor
      · intro h
        tauto
      · rintro (h | h | h)
        · tauto
        · subst h
          exact Or.inl hmem
        · tauto
    · simp only [List.mem_append, List.map_cons, List.mem_cons,
        List.mem_singleton]
      tauto

theorem getKey?_foldl_array (p : String) (L : List DomNode) :
    ∀ (m : JsObj RefValue) (es : List DomNode),
      (∀ el ∈ L, refPath el = p → isArrayRef el = true) →
      getKey? m p = some (RefValue.array es) →
      getKey? (L.foldl addRef m) p =
        some (RefValue.array (es ++ L.filter fun el => refPath el == p)) := by
  induction L with
  | nil =>
    intro m es _ hm
    simpa using hm
  | cons el L ih =>
    intro m es hall hm
    rw [List.foldl_cons]
    by_cases hp : refPath el = p
    · have har : isArrayRef el = true := hall el (by simp) hp
      have haddr : addRef m el = setKey m p (RefValue.array (es ++ [el])) := by
        rw [addRef_eq_setKey, har, hp, hm]
        simp
      rw [haddr]
      rw [ih (setKey m p (RefValue.array (es ++ [el]))) (es ++ [el])
        (fun e he hpe => hall e (by simp [he]) hpe) (getKey?_setKey_self _ _ _)]
      rw [List.filter_cons_of_pos (by simp [hp])]
      simp
    · have hstep : getKey? (addRef m el) p = getKey? m p := by
        rw [addRef_eq_setKey]
        exact getKey?_setKey_ne _ _ _ _ (fun he => hp he.symm)
      rw [ih (addRef m el) es (fun e he hpe => hall e (by simp [he]) hpe)
        (hstep.trans hm)]
      rw [List.filter_cons_of_neg (by simp [hp])]

theorem getKey?_foldl_array_start (p : String) (L : List DomNode) :
    ∀ m : JsObj RefValue,
      (∀ el ∈ L, refPath el = p → isArrayRef el = true) →
      getKey? m p = none →
      L.filter (fun el => refPath el == p) ≠ [] →
      getKey? (L.foldl addRef m) p =
        some (RefValue.array (L.filter fun el => refPath el == p)) := by
  induction L with
  | nil =>
    intro m _ _ hne
    exact absurd rfl hne
  | cons el L ih =>
    intro m hall hm hne
    rw [List.foldl_cons]
    by_cases hp : refPath el = p
    · have har : isArrayRef el = true := hall el (by simp) hp
      have haddr : addRef m el = setKey m p (RefValue.array [el]) := by
        rw [addRef_eq_setKey, har, hp, hm]
        simp
      rw [haddr]
      rw [getKey?_foldl_array p L (setKey m p (RefValue.array [el])) [el]
        (fun e he hpe => hall e (by simp [he]) hpe) (getKey?_setKey_self _ _ _)]
      rw [List.filter_cons_of_pos (by simp [hp])]
      simp
    · have hstep : getKey? (addRef m el) p = getKey? m p := by
        rw [addRef_eq_setKey]
        exact getKey?_setKey_ne _ _ _ _ (fun he => hp he.symm)
      rw [List.filter_cons_of_neg (by simp [hp])] at hne ⊢
      exact ih (addRef m el) (fun e he hpe => hall e (by simp [he]) hpe)
        (hstep.trans hm) hne

/-- Claim C4: for a component subtree whose collected ref elements consist of
uniquely named non-pluralized refs together with at least one element of a shared
pluralized name `p[]` (the shared base name distinct from every unique name), the
refs mapping built by the scan has exactly N+1 keys — one per unique name plus the
shared one — and the shared key holds the ordered list of exactly the M pluralized
elements in document order. -/
theorem refs_mapping_shape (anc0 : List DomNode) (self : DomNode) (p : String)
    (harr : ∀ el ∈ collectRefElements anc0 self, isArrayRef el = true → refPath el = p)
    (hsingle : ∀ el ∈ collectRefElements anc0 self, isArrayRef el = false → refPath el ≠ p)
    (hnodup : (((collectRefElements anc0 self).filter fun el => !isArrayRef el).map refPath).Nodup)
    (hM : (collectRefElements anc0 self).filter (fun el => isArrayRef el) ≠ []) :
    (buildRefs (collectRefElements anc0 self)).length =
      ((collectRefElements anc0 self).filter fun el => !isArrayRef el).length + 1 ∧
    getKey? (buildRefs (collectRefElements anc0 self)) p =
      some (RefValue.array ((collectRefElements anc0 self).filter fun el => isArrayRef el)) := by
  have hfeq : (collectRefElements anc0 self).filter (fun el => refPath el == p) =
      (collectRefElements anc0 self).filter (fun el => isArrayRef el) := by
    apply List.filter_congr
    intro el hel
    rcases har : isArrayRef el with _ | _
    · have := hsingle el hel har
      simp [this]
    · have := harr el hel har
      simp [this]
  constructor
  · have hnodupkeys : ((buildRefs (collectRefElements anc0 self)).map Prod.fst).Nodup :=
      nodup_map_fst_foldl _ [] (by simp)
    have hmemkeys : ∀ k, k ∈ (buildRefs (collectRefElements anc0 self)).map Prod.fst ↔
        k ∈ (collectRefElements anc0 self).map refPath := by
      intro k
      rw [buildRefs, mem_map_fst_foldl]
      simp
    have hlen1 : (buildRefs (collectRefElements anc0 self)).length =
        ((buildRefs (collectRefElements anc0 self)).map Prod.fst).length :=
      (List.length_map _ _).symm
    rw [hlen1, ← List.toFinset_card_of_nodup hnodupkeys]
    have hset : ((buildRefs (collectRefElements anc0 self)).map Prod.fst).toFinset =
        insert p ((((collectRefElements anc0 self).filter fun el => !isArrayRef el).map refPath).toFinset) := by
      ext k
      rw [List.mem_toFinset, hmemkeys, Finset.mem_insert, List.mem_toFinset]
      constructor
      · rintro hk
        obtain ⟨el, hel, hrfl⟩ := List.mem_map.mp hk
        rcases har : isArrayRef el with _ | _
        · right
          apply List.mem_map.mpr
          exact ⟨el, List.mem_filter.mpr ⟨hel, by simp [har]⟩, hrfl⟩
        · left
          rw [← hrfl]
          exact harr el hel har
      · rintro (hk | hk)
        · subst hk
          obtain ⟨el, helmem⟩ := List.exists_mem_of_ne_nil _ hM
          have helL := (List.mem_filter.mp helmem).1
          have har := (List.mem_filter.mp helmem).2
          exact List.mem_map.mpr ⟨el, helL, harr el helL har⟩
        · obtain ⟨el, hel, hrfl⟩ := List.mem_map.mp hk
          exact List.mem_map.mpr ⟨el, (List.mem_filter.mp hel).1, hrfl⟩
    rw [hset]
    have hpnot : p ∉
        (((collectRefElements anc0 self).filter fun el => !isArrayRef el).map refPath).toFinset := by
      rw [List.mem_toFinset]
      intro hk
      obtain ⟨el, hel, hrfl⟩ := List.mem_map.mp hk
      have h1 := (List.mem_filter.mp hel).1
      have h2 := (List.mem_filter.mp hel).2
      exact hsingle el h1 (by simpa using h2) hrfl
    rw [Finset.card_insert_of_not_mem hpnot,
      List.toFinset_card_of_nodup hnodup, List.length_map]
  · rw [← hfeq]
    rw [buildRefs]
    apply getKey?_foldl_array_start
    · intro el hel hpe
      rcases har : isArrayRef el with _ | _
      · exact absurd hpe (hsingle el hel har)
      · rfl
    · rfl
    · rw [hfeq]
      exact hM

/-- Witness for C4: the nav component with refs `a`, `b` and three `items[]`. -/
theorem refs_mapping_shape_witness :
    (buildRefs (collectRefElements [] exNav)).length =
      ((collectRefElements [] exNav).filter fun el => !isArrayRef el).length + 1 ∧
    getKey? (buildRefs (collectRefElements [] exNav)) "items" =
      some (RefValue.array ((collectRefElements [] exNav).filter fun el => isArrayRef el)) :=
  refs_mapping_shape [] exNav "items" (by decide) (by decide) (by decide) (by decide)

end VesselTheme
